import Mathlib

/-
  Verification of the envarfig-go environment binder.

  The definitions below are a shallow embedding of src/parser.go,
  src/envarfig.go, src/settings.go and src/env.go. Go standard library
  routines (strings.Split, strings.TrimSpace, strings.ToLower,
  strconv.ParseInt, strconv.ParseUint, strconv.ParseBool, reflect value
  assignment) are modelled by executable Lean functions that follow the
  documented Go semantics on the ASCII inputs the library works with.
  Reflection-driven dispatch over struct field types is replaced by an
  explicit FieldKind datatype; struct field values become a GoVal sum.
  Float and complex field shapes are not embedded; no claim below needs
  them.
-/

namespace Envarfig

/- Character constants, used instead of quote and brace literals. -/

def squote : Char := Char.ofNat 39

def dquote : Char := Char.ofNat 34

def bslash : Char := Char.ofNat 92

def lbrace : Char := Char.ofNat 123

def rbrace : Char := Char.ofNat 125

def squoteS : String := String.singleton squote

def dquoteS : String := String.singleton dquote

def lbraceS : String := String.singleton lbrace

def rbraceS : String := String.singleton rbrace

/- Go unicode.IsSpace on the code points TrimSpace actually strips
   (ASCII whitespace plus NEL and NBSP). -/

def isSpaceGo (c : Char) : Bool :=
  c = ' ' ∨ c = Char.ofNat 9 ∨ c = Char.ofNat 10 ∨ c = Char.ofNat 11 ∨
  c = Char.ofNat 12 ∨ c = Char.ofNat 13 ∨ c = Char.ofNat 133 ∨ c = Char.ofNat 160

/- strings.TrimSpace -/

def goTrim (s : String) : String :=
  String.mk (((s.data.dropWhile isSpaceGo).reverse.dropWhile isSpaceGo).reverse)

/- strings.ToLower restricted to ASCII letters. -/

def charToLowerGo (c : Char) : Char :=
  if c.toNat ≥ 65 ∧ c.toNat ≤ 90 then Char.ofNat (c.toNat + 32) else c

def goToLower (s : String) : String :=
  String.mk (s.data.map charToLowerGo)

/- strings.Contains, via a substring scan. -/

def subListOf (pat : List Char) : List Char → Bool
  | [] => pat.isEmpty
  | c :: rest => pat.isPrefixOf (c :: rest) || subListOf pat rest

def goContains (s pat : String) : Bool :=
  subListOf pat.data s.data

/- strings.Split with a non-empty separator: split around every
   non-overlapping occurrence, scanning left to right. The fuel argument
   starts at the length of the input and never runs out, because every
   step consumes at least one character. An empty separator makes Go
   explode the string into runes. -/

def splitCharsFuel (sep : List Char) : Nat → List Char → List Char → List (List Char)
  | _, [], acc => [acc.reverse]
  | 0, l, acc => [acc.reverse ++ l]
  | fuel + 1, c :: rest, acc =>
    if sep.isPrefixOf (c :: rest) then
      acc.reverse :: splitCharsFuel sep fuel (List.drop (sep.length - 1) rest) []
    else
      splitCharsFuel sep fuel rest (c :: acc)

def goSplit (s sep : String) : List String :=
  match sep.data with
  | [] => s.data.map (fun c => String.singleton c)
  | c :: cs => (splitCharsFuel (c :: cs) s.data.length s.data []).map (fun l => String.mk l)

/- strings.SplitN(s, sep, 2) for a one-character separator: none when the
   separator does not occur, otherwise the pieces before and after its
   first occurrence. -/

def splitFirstChar (sep : Char) : List Char → Option (List Char × List Char)
  | [] => none
  | c :: rest =>
    if c = sep then some ([], rest)
    else (splitFirstChar sep rest).map (fun p => (c :: p.1, p.2))

/- strings.ReplaceAll(s, pattern, "") for a one-character pattern. -/

def removeChar (c : Char) (s : String) : String :=
  String.mk (s.data.filter (fun x => x ≠ c))

/- strconv parse errors and their rendered messages. -/

inductive NumErr where
  | synErr
  | rangeErr
deriving DecidableEq, Repr

def numErrMsg : NumErr → String
  | .synErr => "invalid syntax"
  | .rangeErr => "value out of range"

def quotedStr (s : String) : String := dquoteS ++ s ++ dquoteS

def digitsToNat (ds : List Char) : Nat :=
  ds.foldl (fun a c => a * 10 + (c.toNat - 48)) 0

/- strconv.ParseUint(s, 10, bits): no sign allowed, decimal digits only,
   range bound 2^bits - 1. -/

def goParseUint (s : String) (bits : Nat) : Except NumErr Nat :=
  let ds := s.data
  if ds.isEmpty then .error .synErr
  else if ds.all Char.isDigit then
    let v := digitsToNat ds
    if v ≤ 2 ^ bits - 1 then .ok v else .error .rangeErr
  else .error .synErr

/- strconv.ParseInt(s, 10, bits): optional leading sign, decimal digits,
   asymmetric signed range bound. For widths up to 64 the inner
   64-bit magnitude clamp of the Go implementation never masks a range
   error, so the magnitude is compared directly to the signed cutoffs. -/

def goParseInt (s : String) (bits : Nat) : Except NumErr Int :=
  match s.data with
  | [] => .error .synErr
  | c :: rest =>
    let neg := c = '-'
    let ds := if c = '-' ∨ c = '+' then rest else c :: rest
    if ds.isEmpty then .error .synErr
    else if ds.all Char.isDigit then
      let v := digitsToNat ds
      if neg then
        if v ≤ 2 ^ (bits - 1) then .ok (-(v : Int)) else .error .rangeErr
      else
        if v ≤ 2 ^ (bits - 1) - 1 then .ok (v : Int) else .error .rangeErr
    else .error .synErr

/- strconv.ParseBool accepts exactly these literals. -/

def goParseBool (s : String) : Except NumErr Bool :=
  if s = "1" ∨ s = "t" ∨ s = "T" ∨ s = "TRUE" ∨ s = "true" ∨ s = "True" then .ok true
  else if s = "0" ∨ s = "f" ∨ s = "F" ∨ s = "FALSE" ∨ s = "false" ∨ s = "False" then .ok false
  else .error .synErr

/- reflect.Value.SetUint and SetInt silently truncate to the field width. -/

def wrapUint (bits : Nat) (v : Nat) : Nat := v % 2 ^ bits

def wrapInt (bits : Nat) (v : Int) : Int :=
  (v + 2 ^ (bits - 1)) % 2 ^ bits - 2 ^ (bits - 1)

/- The value the required and isstring resolvers examine: Go reassigns
   property to strings.Split(property, "=")[1] — the text between the
   first and second equals sign — trimmed and lower-cased, when an equals
   sign is present, and otherwise examines the whole token. -/

def reqExamined (prop : String) : String :=
  if goContains prop "=" then goToLower (goTrim ((goSplit prop "=").getD 1 "")) else prop

/- The value the delimiter resolver examines
   (strings.SplitN(property, "=", 2)[1], trimmed then lower-cased), and
   the quoted-pair test it applies before installing a delimiter: length
   at least two, first byte equal to last byte, and that byte a quote
   character. -/

def delimValueOf (p2 : List Char) : List Char :=
  (goToLower (goTrim (String.mk p2))).data

def isQuotedPair (v : List Char) : Prop :=
  v.length ≥ 2 ∧ v.head! = v.getLast! ∧ (v.head! = dquote ∨ v.head! = squote)

instance (v : List Char) : Decidable (isQuotedPair v) := by
  unfold isQuotedPair
  infer_instance

/- Field descriptor, from src/parser.go (type tagProperties). -/

structure tagProperties where
  EnvName : String
  DefaultValue : String
  Delimiter : String
  Required : Bool
  isString : Bool
deriving DecidableEq, Repr

/- splitTagRespectingQuotes from src/parser.go: split the tag on commas
   outside single- or double-quoted spans; a quote preceded by a
   backslash is not a boundary; every part is trimmed; a trailing empty
   part is dropped. -/

def splitTagAux : List Char → Bool → Char → Option Char → List Char → List String → List String
  | [], _, _, _, part, parts =>
    if part.length > 0 then parts ++ [goTrim (String.mk part.reverse)] else parts
  | c :: rest, inQ, qc, prev, part, parts =>
    let isQuoteChar := (c = squote ∨ c = dquote) ∧ prev ≠ some bslash
    let st : Bool × Char :=
      if isQuoteChar then
        if inQ then (if c = qc then (false, qc) else (inQ, qc))
        else (true, c)
      else (inQ, qc)
    if c = ',' ∧ inQ = false then
      splitTagAux rest st.1 st.2 (some c) [] (parts ++ [goTrim (String.mk part.reverse)])
    else
      splitTagAux rest st.1 st.2 (some c) (c :: part) parts

def splitTagRespectingQuotes (tag : String) : List String :=
  splitTagAux tag.data false (Char.ofNat 0) none [] []

/- checkAndSetTagPropRequired from src/parser.go. Note that the examined
   value is strings.Split(property, "=")[1], the text between the first
   and second equals sign, and that the decision is by substring
   containment of true and false. -/

def checkAndSetTagPropRequired (property : String) (tagProp : tagProperties) : tagProperties :=
  if goContains (goToLower property) "required" = false then tagProp
  else
    if goContains (reqExamined property) "true" then { tagProp with Required := true }
    else if goContains (reqExamined property) "false" then { tagProp with Required := false }
    else { tagProp with Required := true }

/- checkAndSetTagPropDefaultValue from src/parser.go. The value is
   everything after the first equals sign, trimmed and lower-cased; a
   symmetric pair of surrounding quotes is stripped and the interior
   re-trimmed. -/

def stripSymQuotes (s : String) : String :=
  let cs := s.data
  if cs.length ≥ 2 then
    let first := cs.head!
    let last := cs.getLast!
    if first = last ∧ (first = dquote ∨ first = squote) then
      goTrim (String.mk (cs.drop 1 |>.dropLast))
    else s
  else s

def checkAndSetTagPropDefaultValue (property : String) (tagProp : tagProperties) : tagProperties :=
  if goContains (goToLower property) "default" = false then tagProp
  else if goContains property "=" = false then tagProp
  else
    match splitFirstChar '=' property.data with
    | none => tagProp
    | some p =>
      let v := goToLower (goTrim (String.mk p.2))
      { tagProp with DefaultValue := stripSymQuotes v }

/- checkAndSetTagPropDelimiterForSliceOrArray from src/parser.go: same
   extraction as the default resolver, but the delimiter is installed
   only when the trimmed lower-cased value is a quoted literal of length
   at least two with matching outer quote characters. -/

def checkAndSetTagPropDelimiterForSliceOrArray (property : String) (tagProp : tagProperties) : tagProperties :=
  if goContains (goToLower property) "delimiter" = false then tagProp
  else if goContains property "=" = false then tagProp
  else
    match splitFirstChar '=' property.data with
    | none => tagProp
    | some p =>
      if isQuotedPair (delimValueOf p.2) then
        { tagProp with Delimiter := goTrim (String.mk ((delimValueOf p.2).drop 1 |>.dropLast)) }
      else tagProp

/- cehckAndSetIsStringForByteOrRuneArray from src/parser.go (source
   spelling kept). -/

def cehckAndSetIsStringForByteOrRuneArray (property : String) (tagProp : tagProperties) : tagProperties :=
  if goContains (goToLower property) "isstring" = false then tagProp
  else
    if goContains (reqExamined property) "true" then { tagProp with isString := true }
    else if goContains (reqExamined property) "false" then tagProp
    else { tagProp with isString := true }

/- parseTagAndTagValues from src/parser.go: the first token is the
   environment variable name, defaults are installed, and every further
   token is offered to each resolver in source order. The Go code indexes
   properties[0], which is only reached for a non-empty tag. -/

def applyResolvers (prop : String) (tagProp : tagProperties) : tagProperties :=
  cehckAndSetIsStringForByteOrRuneArray prop
    (checkAndSetTagPropDelimiterForSliceOrArray prop
      (checkAndSetTagPropDefaultValue prop
        (checkAndSetTagPropRequired prop tagProp)))

def parseTagAndTagValues (tag : String) : tagProperties :=
  let properties := splitTagRespectingQuotes tag
  let envName := properties.headD ""
  let tagProp : tagProperties :=
    { EnvName := envName, DefaultValue := "", Delimiter := ",", Required := false, isString := false }
  properties.tail.foldl (fun tp prop => applyResolvers prop tp) tagProp

/- Field shapes and bound values. Scalar shapes carry the declared bit
   width; Go int and uint are 64 bits on the supported targets. -/

inductive ElemKind where
  | strE
  | intE (bits : Nat)
  | uintE (bits : Nat)
  | boolE
  | anyE
deriving DecidableEq, Repr

inductive FieldKind where
  | stringK
  | intK (bits : Nat)
  | uintK (bits : Nat)
  | boolK
  | anyK
  | sliceK (e : ElemKind)
  | arrayK (n : Nat) (e : ElemKind)
  | mapK (k v : ElemKind)
deriving DecidableEq, Repr

inductive ScalarVal where
  | sStr (s : String)
  | sInt (v : Int)
  | sUint (v : Nat)
  | sBool (b : Bool)
  | sAny (s : String)
deriving DecidableEq, Repr

inductive GoVal where
  | scalar (v : ScalarVal)
  | vList (xs : List ScalarVal)
  | vMap (es : List (ScalarVal × ScalarVal))
deriving DecidableEq, Repr

/- Element coercion: the per-element switch of
   setEnvVarSliceOrArrayValues in src/parser.go. The parse bound is the
   declared element width (elemType.Bits()) and errors wrap the
   environment variable name and the strconv failure. -/

def coerceElem (e : ElemKind) (envName strVal : String) : Except String ScalarVal :=
  match e with
  | .strE => .ok (.sStr strVal)
  | .intE bits =>
    match goParseInt strVal bits with
    | .error er =>
      .error ("failed to convert " ++ envName ++ " to int: strconv.ParseInt: parsing " ++
        quotedStr strVal ++ ": " ++ numErrMsg er)
    | .ok v => .ok (.sInt v)
  | .uintE bits =>
    match goParseUint strVal bits with
    | .error er =>
      .error ("failed to convert " ++ envName ++ " to uint: strconv.ParseUint: parsing " ++
        quotedStr strVal ++ ": " ++ numErrMsg er)
    | .ok v => .ok (.sUint v)
  | .boolE =>
    match goParseBool strVal with
    | .error er =>
      .error ("error parsing env var " ++ envName ++ ": strconv.ParseBool: parsing " ++
        quotedStr strVal ++ ": " ++ numErrMsg er)
    | .ok b => .ok (.sBool b)
  | .anyE => .ok (.sAny strVal)

/- The element loop stops at the first failing element. -/

def exceptMapM (f : String → Except String ScalarVal) : List String → Except String (List ScalarVal)
  | [] => .ok []
  | x :: xs =>
    match f x with
    | .error e => .error e
    | .ok w => (exceptMapM f xs).map (fun ws => w :: ws)

/- setEnvVarSliceOrArrayValues from src/parser.go. For arrays the token
   count must equal the declared length before any element is examined.
   With the isString hint a rune element type takes the raw text as code
   points and a byte element type takes its UTF-8 bytes; on an ARRAY
   field those two branches would make the Go code panic (Set of a slice
   into an array at src/parser.go:196, SetBytes on an array at
   src/parser.go:207), the model returns the converted list instead, and
   no theorem below reaches that case. -/

def procSliceTokens (e : ElemKind) (envName envValue : String) (tagProp : tagProperties)
    (toks : List String) : Except String GoVal :=
  if tagProp.isString = true ∧ e = .intE 32 then
    .ok (.vList (envValue.data.map (fun c => .sInt (c.toNat : Int))))
  else if tagProp.isString = true ∧ e = .uintE 8 then
    .ok (.vList (envValue.toUTF8.toList.map (fun b => .sUint b.toNat)))
  else
    (exceptMapM (fun t => coerceElem e envName (goTrim t)) toks).map GoVal.vList

def setEnvVarSliceOrArrayValues (isArray : Bool) (arrLen : Nat) (e : ElemKind)
    (envName envValue : String) (tagProp : tagProperties) : Except String GoVal :=
  let toks := goSplit envValue tagProp.Delimiter
  if isArray = true ∧ toks.length ≠ arrLen then
    .error ("env var " ++ envName ++ " has " ++ toString toks.length ++
      " values, but array expects " ++ toString arrLen)
  else
    procSliceTokens e envName envValue tagProp toks

/- setEnvVarMapValues from src/parser.go. After the delimiter split the
   code runs strings.ReplaceAll(tok, brace, "") on the first and on the
   last token, removing every such brace character anywhere in those
   tokens; for a single token both replacements hit it in order. Each
   token is then split on the first colon; key and value are trimmed and
   coerced, the key first. reflect SetMapIndex overwrites an existing
   key. -/

def stripBracesLast : List String → List String
  | [] => []
  | [x] => [removeChar rbrace x]
  | x :: rest => x :: stripBracesLast rest

def stripBracesGo : List String → List String
  | [] => []
  | [x] => [removeChar rbrace (removeChar lbrace x)]
  | x :: rest => removeChar lbrace x :: stripBracesLast rest

def coerceMapKey (k : ElemKind) (key : String) : Except String ScalarVal :=
  match k with
  | .strE => .ok (.sStr key)
  | .intE bits =>
    match goParseInt key bits with
    | .error er =>
      .error ("failed to convert map key " ++ key ++ " to int: strconv.ParseInt: parsing " ++
        quotedStr key ++ ": " ++ numErrMsg er)
    | .ok v => .ok (.sInt v)
  | .uintE bits =>
    match goParseUint key bits with
    | .error er =>
      .error ("failed to convert map key " ++ key ++ " to uint: strconv.ParseUint: parsing " ++
        quotedStr key ++ ": " ++ numErrMsg er)
    | .ok v => .ok (.sUint v)
  | .boolE =>
    match goParseBool key with
    | .error er =>
      .error ("failed to convert map key " ++ key ++ " to bool: strconv.ParseBool: parsing " ++
        quotedStr key ++ ": " ++ numErrMsg er)
    | .ok b => .ok (.sBool b)
  | .anyE => .ok (.sAny key)

def coerceMapVal (v : ElemKind) (value : String) : Except String ScalarVal :=
  match v with
  | .strE => .ok (.sStr value)
  | .intE bits =>
    match goParseInt value bits with
    | .error er =>
      .error ("failed to convert map value " ++ value ++ " to int: strconv.ParseInt: parsing " ++
        quotedStr value ++ ": " ++ numErrMsg er)
    | .ok n => .ok (.sInt n)
  | .uintE bits =>
    match goParseUint value bits with
    | .error er =>
      .error ("failed to convert map value " ++ value ++ " to uint: strconv.ParseUint: parsing " ++
        quotedStr value ++ ": " ++ numErrMsg er)
    | .ok n => .ok (.sUint n)
  | .boolE =>
    match goParseBool value with
    | .error er =>
      .error ("failed to convert map value " ++ value ++ " to bool: strconv.ParseBool: parsing " ++
        quotedStr value ++ ": " ++ numErrMsg er)
    | .ok b => .ok (.sBool b)
  | .anyE => .ok (.sAny value)

def insertEntry (es : List (ScalarVal × ScalarVal)) (k v : ScalarVal) :
    List (ScalarVal × ScalarVal) :=
  if es.any (fun p => decide (p.1 = k)) then
    es.map (fun p => if p.1 = k then (k, v) else p)
  else es ++ [(k, v)]

def mapPairsLoop (kk vk : ElemKind) (envName : String) :
    List String → List (ScalarVal × ScalarVal) → Except String (List (ScalarVal × ScalarVal))
  | [], acc => .ok acc
  | pair :: rest, acc =>
    match splitFirstChar ':' pair.data with
    | none => .error ("invalid map entry for " ++ envName ++ ": " ++ pair)
    | some p =>
      match coerceMapKey kk (goTrim (String.mk p.1)) with
      | .error e => .error e
      | .ok key =>
        match coerceMapVal vk (goTrim (String.mk p.2)) with
        | .error e => .error e
        | .ok val => mapPairsLoop kk vk envName rest (insertEntry acc key val)

def setEnvVarMapValues (kk vk : ElemKind) (envName envValue : String)
    (tagProp : tagProperties) : Except String GoVal :=
  let mv := stripBracesGo (goSplit envValue tagProp.Delimiter)
  (mapPairsLoop kk vk envName mv []).map GoVal.vMap

/- setEnvVarValues from src/parser.go: dispatch over the field kind. The
   top-level integer cases parse with a fixed 64-bit bound
   (strconv.ParseInt(envValue, 10, 64) resp. ParseUint) and the reflect
   setter then truncates to the declared field width. -/

def setEnvVarValues (kind : FieldKind) (tagProp : tagProperties) (envValue : String) :
    Except String GoVal :=
  match kind with
  | .stringK => .ok (.scalar (.sStr envValue))
  | .intK bits =>
    match goParseInt envValue 64 with
    | .error er =>
      .error ("failed to convert " ++ tagProp.EnvName ++ " to int: strconv.ParseInt: parsing " ++
        quotedStr envValue ++ ": " ++ numErrMsg er)
    | .ok v => .ok (.scalar (.sInt (wrapInt bits v)))
  | .uintK bits =>
    match goParseUint envValue 64 with
    | .error er =>
      .error ("failed to convert " ++ tagProp.EnvName ++ " to uint: strconv.ParseUint: parsing " ++
        quotedStr envValue ++ ": " ++ numErrMsg er)
    | .ok v => .ok (.scalar (.sUint (wrapUint bits v)))
  | .boolK =>
    match goParseBool envValue with
    | .error er =>
      .error ("error parsing env var " ++ tagProp.EnvName ++ ": strconv.ParseBool: parsing " ++
        quotedStr envValue ++ ": " ++ numErrMsg er)
    | .ok b => .ok (.scalar (.sBool b))
  | .anyK => .ok (.scalar (.sAny envValue))
  | .sliceK e => setEnvVarSliceOrArrayValues false 0 e tagProp.EnvName envValue tagProp
  | .arrayK n e => setEnvVarSliceOrArrayValues true n e tagProp.EnvName envValue tagProp
  | .mapK k v => setEnvVarMapValues k v tagProp.EnvName envValue tagProp

/- Source-text resolution and the per-field bind step of parseEnvVar in
   src/parser.go: environment value if present, else the required check,
   else the default. -/

def resolveEnvValue (env : String → Option String) (tagProp : tagProperties) :
    Except String String :=
  match env tagProp.EnvName with
  | some v => .ok v
  | none =>
    if tagProp.Required = true ∧ tagProp.DefaultValue = "" then
      .error ("required environment variable " ++ tagProp.EnvName ++ " not found")
    else .ok tagProp.DefaultValue

def bindField (env : String → Option String) (tag : String) (kind : FieldKind) :
    Except String GoVal :=
  if tag = "" then .error "tag not found"
  else
    let tagProp := parseTagAndTagValues tag
    match resolveEnvValue env tagProp with
    | .error e => .error e
    | .ok envValue => setEnvVarValues kind tagProp envValue

/- The element loop again, but keeping the prefix of elements that were
   coerced before the first failure: for an ARRAY field Go iterates over
   newValue = fieldValue (src/parser.go:183), writing each element into
   the struct field itself, so the elements before a failing one are
   already assigned when the error returns. -/

def exceptMapMKeep (f : String → Except String ScalarVal) :
    List String → Except (String × List ScalarVal) (List ScalarVal)
  | [] => .ok []
  | x :: xs =>
    match f x with
    | .error e => .error (e, [])
    | .ok w =>
      match exceptMapMKeep f xs with
      | .error p => .error (p.1, w :: p.2)
      | .ok ws => .ok (w :: ws)

/- The array case of setEnvVarValues with its in-place mutation made
   explicit: the error carries the value the field holds after the failed
   attempt. The length check runs before any element is touched, so it
   leaves the prior value; an element failure leaves the coerced prefix
   in place and the remaining prior elements untouched. A prior value of
   another shape cannot arise for a record whose values align with its
   field kinds and is passed through unchanged. -/

def setEnvVarArrayMut (n : Nat) (e : ElemKind) (envName envValue : String)
    (tagProp : tagProperties) (prior : GoVal) : Except (String × GoVal) GoVal :=
  let toks := goSplit envValue tagProp.Delimiter
  if toks.length ≠ n then
    .error ("env var " ++ envName ++ " has " ++ toString toks.length ++
      " values, but array expects " ++ toString n, prior)
  else if tagProp.isString = true ∧ e = .intE 32 then
    .ok (.vList (envValue.data.map (fun c => .sInt (c.toNat : Int))))
  else if tagProp.isString = true ∧ e = .uintE 8 then
    .ok (.vList (envValue.toUTF8.toList.map (fun b => .sUint b.toNat)))
  else
    match exceptMapMKeep (fun t => coerceElem e envName (goTrim t)) toks with
    | .ok ws => .ok (.vList ws)
    | .error p =>
      .error (p.1,
        match prior with
        | .vList xs => .vList (p.2 ++ xs.drop p.2.length)
        | _ => prior)

/- The per-field bind step together with the value the field holds after
   it: scalar, slice and map coercion only assign the field on success
   (their newValue is fresh and fieldValue.Set runs after the loop), so
   on error those fields keep their prior value; an array field is
   mutated element by element in place. -/

def bindFieldMut (env : String → Option String) (tag : String) (kind : FieldKind)
    (prior : GoVal) : Except (String × GoVal) GoVal :=
  if tag = "" then .error ("tag not found", prior)
  else
    let tagProp := parseTagAndTagValues tag
    match resolveEnvValue env tagProp with
    | .error e => .error (e, prior)
    | .ok envValue =>
      match kind with
      | .arrayK n e => setEnvVarArrayMut n e tagProp.EnvName envValue tagProp prior
      | _ =>
        match setEnvVarValues kind tagProp envValue with
        | .error e => .error (e, prior)
        | .ok w => .ok w

/- The field loop of parseEnvVar: fields are processed in declaration
   order, mutating the record in place; the first error is returned at
   once, so earlier assignments stay, the failing field holds whatever
   its failed bind step left in it (for arrays a partially assigned
   value), and later fields keep their prior values. The record is a list
   of (tag, kind) fields aligned with a list of current field values. -/

def parseEnvVarGo (env : String → Option String) :
    List (String × FieldKind) → List GoVal → Option String × List GoVal
  | [], vals => (none, vals)
  | _ :: _, [] => (none, [])
  | (tag, kind) :: fs, v :: vs =>
    match bindFieldMut env tag kind v with
    | .error p => (some p.1, p.2 :: vs)
    | .ok w =>
      let r := parseEnvVarGo env fs vs
      (r.1, w :: r.2)

/- src/settings.go: option values mutate a settings record; loadSettings
   applies them in order over the defaults. -/

structure settings where
  AutoLoadEnv : Bool
  CacheConfig : Bool
  EnvFiles : Option (List String)
deriving DecidableEq, Repr

def defaultSettings : settings :=
  { AutoLoadEnv := true, EnvFiles := none, CacheConfig := true }

def loadSettings (opts : List (settings → settings)) : settings :=
  opts.foldl (fun s o => o s) defaultSettings

def WithEnvFiles (envFiles : List String) : settings → settings :=
  fun s => { s with EnvFiles := some envFiles }

def WithAutoLoadEnv (b : Bool) : settings → settings :=
  fun s => { s with AutoLoadEnv := b }

def WithCacheConfig (b : Bool) : settings → settings :=
  fun s => { s with CacheConfig := b }

/- src/env.go loadEnvFile: with auto-load the external godotenv loader
   runs (its success is the loaderOk parameter); without auto-load an
   explicit file list is a usage error and no files means a no-op. The
   result is true when no error occurred. -/

def loadEnvFileGo (loaderOk : Bool) (autoLoadEnv : Bool) (files : Option (List String)) : Bool :=
  if autoLoadEnv = true then loaderOk
  else if files ≠ none then false
  else true

/- src/envarfig.go LoadEnv: the cache is a map keyed by the record type.
   A hit copies the snapshot out and returns at once, before options are
   even read and without re-running the loader or the parser. On a miss
   the settings are built, a file-load failure is replaced by the
   invalid-env-path error, and a successful parse result is stored
   unconditionally; the CacheConfig field of the settings is never
   consulted. The cache is modelled as an association list keyed by a
   type name; the loader outcome and the parse outcome enter as
   parameters. -/

def lookupCache {V : Type} (cache : List (String × V)) (key : String) : Option V :=
  match cache with
  | [] => none
  | (k, v) :: rest => if k = key then some v else lookupCache rest key

def loadEnvGo {V : Type} (cache : List (String × V)) (key : String)
    (opts : List (settings → settings)) (loaderOk : Bool) (parseResult : Except String V) :
    Except String V × List (String × V) :=
  match lookupCache cache key with
  | some v => (.ok v, cache)
  | none =>
    let s := loadSettings opts
    if loadEnvFileGo loaderOk s.AutoLoadEnv s.EnvFiles = false then
      (.error "invalid env path args", cache)
    else
      match parseResult with
      | .error e => (.error e, cache)
      | .ok v => (.ok v, (key, v) :: cache)

/- Modelled from the spec: the mapping rule of claim C5 says binding
   strips ONE leading opening brace from the first token and ONE trailing
   closing brace from the last token. These definitions follow those
   words; they are compared against the brace handling translated from
   src/parser.go above. -/

def stripOneLeading (c : Char) (s : String) : String :=
  match s.data with
  | [] => s
  | x :: xs => if x = c then String.mk xs else s

def stripOneTrailing (c : Char) (s : String) : String :=
  match s.data.reverse with
  | [] => s
  | x :: xs => if x = c then String.mk xs.reverse else s

def specStripBracesLast : List String → List String
  | [] => []
  | [x] => [stripOneTrailing rbrace x]
  | x :: rest => x :: specStripBracesLast rest

def specStripBraces : List String → List String
  | [] => []
  | [x] => [stripOneTrailing rbrace (stripOneLeading lbrace x)]
  | x :: rest => stripOneLeading lbrace x :: specStripBracesLast rest

def specMapCoerce (kk vk : ElemKind) (envName envValue : String)
    (tagProp : tagProperties) : Except String GoVal :=
  let mv := specStripBraces (goSplit envValue tagProp.Delimiter)
  (mapPairsLoop kk vk envName mv []).map GoVal.vMap

/- First processed token with no colon, the one the map loop reports. -/

def hasColon (s : String) : Bool :=
  (splitFirstChar ':' s.data).isSome

def firstNoColon : List String → Option String
  | [] => none
  | t :: rest => if hasColon t then firstNoColon rest else some t

/- The value the required resolver actually examines: the text between
   the first and second equals sign, trimmed and lower-cased, or the
   whole token when there is no equals sign. -/

/- Helper lemmas. -/

theorem goSplit_empty_left (sep : String) (h : sep.data ≠ []) : goSplit "" sep = [""] := by
  unfold goSplit
  cases hs : sep.data with
  | nil => exact absurd hs h
  | cons c cs => rfl

theorem exceptMapM_ok_of_forall (f : String → Except String ScalarVal) (l : List String)
    (h : ∀ t ∈ l, ∃ w, f t = .ok w) :
    ∃ ws, exceptMapM f l = .ok ws ∧ ws.length = l.length ∧
      ∀ j t, l.get? j = some t → ∃ w, f t = .ok w ∧ ws.get? j = some w := by
  induction l with
  | nil =>
    refine ⟨[], rfl, rfl, ?_⟩
    intro j t hj
    simp at hj
  | cons x xs ih =>
    obtain ⟨w, hw⟩ := h x (List.mem_cons_self x xs)
    obtain ⟨ws, h1, h2, h3⟩ := ih (fun t ht => h t (List.mem_cons_of_mem x ht))
    refine ⟨w :: ws, ?_, ?_, ?_⟩
    · simp [exceptMapM, hw, h1, Except.map]
    · simp [h2]
    · intro j t hj
      cases j with
      | zero =>
        simp at hj
        subst hj
        exact ⟨w, hw, rfl⟩
      | succ j =>
        exact h3 j t hj

theorem mapPairsLoop_strE (name : String) (l : List String) :
    ∀ acc,
      (∀ t, firstNoColon l = some t →
        mapPairsLoop .strE .strE name l acc =
          .error ("invalid map entry for " ++ name ++ ": " ++ t)) ∧
      (firstNoColon l = none →
        ∃ es, mapPairsLoop .strE .strE name l acc = .ok es) := by
  induction l with
  | nil =>
    intro acc
    refine ⟨?_, ?_⟩
    · intro t ht; simp [firstNoColon] at ht
    · intro _; exact ⟨acc, rfl⟩
  | cons x xs ih =>
    intro acc
    cases hc : splitFirstChar ':' x.data with
    | none =>
      refine ⟨?_, ?_⟩
      · intro t ht
        have hx : hasColon x = false := by simp [hasColon, hc]
        rw [firstNoColon, hx] at ht
        simp at ht
        subst ht
        simp [mapPairsLoop, hc]
      · intro hn
        have hx : hasColon x = false := by simp [hasColon, hc]
        rw [firstNoColon, hx] at hn
        simp at hn
    | some p =>
      have hx : hasColon x = true := by simp [hasColon, hc]
      refine ⟨?_, ?_⟩
      · intro t ht
        rw [firstNoColon, hx] at ht
        simp at ht
        have := (ih (insertEntry acc (.sStr (goTrim (String.mk p.1))) (.sStr (goTrim (String.mk p.2))))).1 t ht
        simpa [mapPairsLoop, hc, coerceMapKey, coerceMapVal] using this
      · intro hn
        rw [firstNoColon, hx] at hn
        simp at hn
        obtain ⟨es, hes⟩ := (ih (insertEntry acc (.sStr (goTrim (String.mk p.1))) (.sStr (goTrim (String.mk p.2))))).2 hn
        refine ⟨es, ?_⟩
        simpa [mapPairsLoop, hc, coerceMapKey, coerceMapVal] using hes

theorem procSliceTokens_strE (name envValue : String) (tp : tagProperties)
    (toks : List String) :
    procSliceTokens .strE name envValue tp toks =
      (exceptMapM (fun t => coerceElem .strE name (goTrim t)) toks).map GoVal.vList := by
  unfold procSliceTokens
  rw [if_neg (fun h => by cases h.2), if_neg (fun h => by cases h.2)]

theorem procSliceTokens_not_isString (e : ElemKind) (name envValue : String)
    (tp : tagProperties) (toks : List String) (h : tp.isString = false) :
    procSliceTokens e name envValue tp toks =
      (exceptMapM (fun t => coerceElem e name (goTrim t)) toks).map GoVal.vList := by
  unfold procSliceTokens
  rw [if_neg (fun hh => by rw [h] at hh; cases hh.1), if_neg (fun hh => by rw [h] at hh; cases hh.1)]

theorem exceptMapM_eq_keep (f : String → Except String ScalarVal) (l : List String) :
    exceptMapM f l =
      (match exceptMapMKeep f l with
       | .ok ws => .ok ws
       | .error p => .error p.1) := by
  induction l with
  | nil => rfl
  | cons x xs ih =>
    simp only [exceptMapM, exceptMapMKeep]
    cases hx : f x with
    | error e => rfl
    | ok w =>
      rw [ih]
      cases hxs : exceptMapMKeep f xs with
      | ok ws => rfl
      | error p => rfl

theorem setEnvVarValues_arrayK_eq_mut (n : Nat) (e : ElemKind) (tp : tagProperties)
    (envValue : String) (prior : GoVal) :
    setEnvVarValues (.arrayK n e) tp envValue =
      (match setEnvVarArrayMut n e tp.EnvName envValue tp prior with
       | .ok w => .ok w
       | .error p => .error p.1) := by
  simp only [setEnvVarValues, setEnvVarSliceOrArrayValues, setEnvVarArrayMut, procSliceTokens]
  by_cases hlen : (goSplit envValue tp.Delimiter).length ≠ n
  · simp [hlen]
  · by_cases h1 : tp.isString = true ∧ e = ElemKind.intE 32
    · simp [hlen, h1]
    · by_cases h2 : tp.isString = true ∧ e = ElemKind.uintE 8
      · simp [hlen, h1, h2]
      · simp [hlen, h1, h2]
        rw [exceptMapM_eq_keep]
        cases hp : exceptMapMKeep (fun t => coerceElem e tp.EnvName (goTrim t))
            (goSplit envValue tp.Delimiter) with
        | ok ws => rfl
        | error p => rfl

theorem bindField_eq_mut (env : String → Option String) (tag : String) (kind : FieldKind)
    (prior : GoVal) :
    bindField env tag kind =
      (match bindFieldMut env tag kind prior with
       | .ok w => .ok w
       | .error p => .error p.1) := by
  simp only [bindField, bindFieldMut]
  by_cases htag : tag = ""
  · simp [htag]
  · simp only [if_neg htag]
    cases hres : resolveEnvValue env (parseTagAndTagValues tag) with
    | error e => rfl
    | ok envValue =>
      dsimp only
      cases kind with
      | arrayK n e =>
        exact setEnvVarValues_arrayK_eq_mut n e (parseTagAndTagValues tag) envValue prior
      | stringK =>
        cases hs : setEnvVarValues .stringK (parseTagAndTagValues tag) envValue <;> rfl
      | intK bits =>
        cases hs : setEnvVarValues (.intK bits) (parseTagAndTagValues tag) envValue <;> rfl
      | uintK bits =>
        cases hs : setEnvVarValues (.uintK bits) (parseTagAndTagValues tag) envValue <;> rfl
      | boolK =>
        cases hs : setEnvVarValues .boolK (parseTagAndTagValues tag) envValue <;> rfl
      | anyK =>
        cases hs : setEnvVarValues .anyK (parseTagAndTagValues tag) envValue <;> rfl
      | sliceK e =>
        cases hs : setEnvVarValues (.sliceK e) (parseTagAndTagValues tag) envValue <;> rfl
      | mapK k v =>
        cases hs : setEnvVarValues (.mapK k v) (parseTagAndTagValues tag) envValue <;> rfl

theorem bindFieldMut_ok_iff (env : String → Option String) (tag : String) (kind : FieldKind)
    (prior : GoVal) (w : GoVal) :
    bindFieldMut env tag kind prior = .ok w ↔ bindField env tag kind = .ok w := by
  rw [bindField_eq_mut env tag kind prior]
  cases bindFieldMut env tag kind prior with
  | ok w2 => simp
  | error p => simp

theorem bindFieldMut_error_exists (env : String → Option String) (tag : String)
    (kind : FieldKind) (prior : GoVal) (e : String)
    (h : bindField env tag kind = .error e) :
    ∃ v2, bindFieldMut env tag kind prior = .error (e, v2) := by
  rw [bindField_eq_mut env tag kind prior] at h
  cases hm : bindFieldMut env tag kind prior with
  | ok w => rw [hm] at h; cases h
  | error p =>
    rw [hm] at h
    simp at h
    exact ⟨p.2, by rw [← h]⟩

theorem parseEnvVarGo_array_partial_assign :
    parseEnvVarGo (fun n => if n = "V" then some "1,2a" else none)
      [("V", .arrayK 2 (.intE 64))]
      [.vList [.sInt 7, .sInt 8]] =
      (some ("failed to convert V to int: strconv.ParseInt: parsing " ++
        quotedStr "2a" ++ ": invalid syntax"),
       [.vList [.sInt 1, .sInt 8]]) :=
  rfl

/- Claim theorems. -/

/-- C1: for every field, binding resolves the source text by precedence —
an existing environment value wins and the default is ignored; an absent
value with required true and empty default fails with the
required-variable-missing error naming the variable; otherwise the
default value is used as the source text. -/
theorem C1_resolution_precedence (env : String → Option String) (tp : tagProperties) :
    (∀ v, env tp.EnvName = some v → resolveEnvValue env tp = .ok v) ∧
    (env tp.EnvName = none → tp.Required = true → tp.DefaultValue = "" →
      resolveEnvValue env tp =
        .error ("required environment variable " ++ tp.EnvName ++ " not found")) ∧
    (env tp.EnvName = none → ¬(tp.Required = true ∧ tp.DefaultValue = "") →
      resolveEnvValue env tp = .ok tp.DefaultValue) := by
  refine ⟨?_, ?_, ?_⟩
  · intro v hv
    simp [resolveEnvValue, hv]
  · intro hn hr hd
    simp [resolveEnvValue, hn, hr, hd]
  · intro hn hnot
    simp [resolveEnvValue, hn, hnot]

/-- C1 witness: the three precedence branches at concrete inputs — an
environment hit, a required miss with empty default, and a miss with a
non-empty default. -/
theorem C1_resolution_precedence_witness :
    resolveEnvValue (fun n => if n = "A" then some "va" else none)
      (parseTagAndTagValues "A") = .ok "va" ∧
    resolveEnvValue (fun _ => none) (parseTagAndTagValues "R,required") =
      .error ("required environment variable " ++ "R" ++ " not found") ∧
    resolveEnvValue (fun _ => none) (parseTagAndTagValues "D,default=dv") = .ok "dv" := by
  refine ⟨?_, ?_, ?_⟩
  · exact (C1_resolution_precedence _ _).1 "va" (by decide)
  · exact (C1_resolution_precedence _ (parseTagAndTagValues "R,required")).2.1
      (by decide) (by decide) (by decide)
  · have h := (C1_resolution_precedence (fun _ => none)
      (parseTagAndTagValues "D,default=dv")).2.2 rfl (by decide)
    simpa using h

/-- C2 counterexample: for the top-level scalar field of width 8 the
numeral 300 exceeds the declared width (the 8-bit parse reports a range
error), yet top-level coercion succeeds, binding the truncated value 44,
because src/parser.go parses top-level integers with a fixed 64-bit
bound. The claim requires an error here. -/
theorem C2_counterexample :
    goParseInt "300" 8 = .error .rangeErr ∧
    setEnvVarValues (.intK 8) (parseTagAndTagValues "N") "300" =
      .ok (.scalar (.sInt 44)) :=
  ⟨rfl, rfl⟩

/-- C2 amended: sequence elements and map keys parse base-10 with the
declared element width as range bound and their errors wrap the variable
name (resp. the key text) and the underlying strconv failure; top-level
scalar integer fields instead parse with a fixed 64-bit bound and the
parsed value is truncated to the field width on assignment, so a numeral
exceeding the field width but within 64 bits binds without error. -/
theorem C2_integer_width_bound :
    (∀ bits name s er, goParseInt s bits = .error er →
      coerceElem (.intE bits) name s =
        .error ("failed to convert " ++ name ++ " to int: strconv.ParseInt: parsing " ++
          quotedStr s ++ ": " ++ numErrMsg er)) ∧
    (∀ bits name s v, goParseInt s bits = .ok v →
      coerceElem (.intE bits) name s = .ok (.sInt v)) ∧
    (∀ bits name s er, goParseUint s bits = .error er →
      coerceElem (.uintE bits) name s =
        .error ("failed to convert " ++ name ++ " to uint: strconv.ParseUint: parsing " ++
          quotedStr s ++ ": " ++ numErrMsg er)) ∧
    (∀ bits name s v, goParseUint s bits = .ok v →
      coerceElem (.uintE bits) name s = .ok (.sUint v)) ∧
    (∀ bits s er, goParseInt s bits = .error er →
      coerceMapKey (.intE bits) s =
        .error ("failed to convert map key " ++ s ++ " to int: strconv.ParseInt: parsing " ++
          quotedStr s ++ ": " ++ numErrMsg er)) ∧
    (∀ bits tp s er, goParseInt s 64 = .error er →
      setEnvVarValues (.intK bits) tp s =
        .error ("failed to convert " ++ tp.EnvName ++ " to int: strconv.ParseInt: parsing " ++
          quotedStr s ++ ": " ++ numErrMsg er)) ∧
    (∀ bits tp s v, goParseInt s 64 = .ok v →
      setEnvVarValues (.intK bits) tp s = .ok (.scalar (.sInt (wrapInt bits v)))) ∧
    (∀ bits tp s v, goParseUint s 64 = .ok v →
      setEnvVarValues (.uintK bits) tp s = .ok (.scalar (.sUint (wrapUint bits v)))) := by
  refine ⟨?_, ?_, ?_, ?_, ?_, ?_, ?_, ?_⟩
  · intro bits name s er h
    simp [coerceElem, h]
  · intro bits name s v h
    simp [coerceElem, h]
  · intro bits name s er h
    simp [coerceElem, h]
  · intro bits name s v h
    simp [coerceElem, h]
  · intro bits s er h
    simp [coerceMapKey, h]
  · intro bits tp s er h
    simp [setEnvVarValues, h]
  · intro bits tp s v h
    simp [setEnvVarValues, h]
  · intro bits tp s v h
    simp [setEnvVarValues, h]

/-- C2 amended witness: the element-level 8-bit parse of 300 fails with a
wrapped range error while the top-level 8-bit field accepts it
truncated. -/
theorem C2_integer_width_bound_witness :
    coerceElem (.intE 8) "N" "300" =
      .error ("failed to convert " ++ "N" ++ " to int: strconv.ParseInt: parsing " ++
        quotedStr "300" ++ ": " ++ numErrMsg .rangeErr) ∧
    setEnvVarValues (.intK 8) (parseTagAndTagValues "N") "300" =
      .ok (.scalar (.sInt (wrapInt 8 300))) := by
  constructor
  · exact C2_integer_width_bound.1 8 "N" "300" .rangeErr rfl
  · exact C2_integer_width_bound.2.2.2.2.2.2.1 8 (parseTagAndTagValues "N") "300" 300 rfl

/-- C3 counterexample: an absent, non-required integer field with empty
default does not bind successfully — the empty source text fails the
base-10 parse, so binding errors instead of producing the zero value. -/
theorem C3_counterexample :
    bindField (fun _ => none) "NUM" (.intK 64) =
      .error ("failed to convert NUM to int: strconv.ParseInt: parsing " ++
        quotedStr "" ++ ": invalid syntax") :=
  rfl

/-- C3 amended: a field whose environment variable is absent, whose
required flag is false and whose default is empty binds using the empty
source text; a string field then holds the empty string (its zero value)
and an opaque field holds a value wrapping the empty text, but integer,
unsigned and boolean fields fail with a syntax error on the empty text, a
fixed-length sequence of length other than one fails its length check
(the empty text splits into one token), a variable-length string sequence
ends holding one empty element, and a mapping fails with a malformed
entry error on the empty token. -/
theorem C3_empty_default_binding (env : String → Option String) (tp : tagProperties)
    (hn : env tp.EnvName = none) (hr : tp.Required = false) (hd : tp.DefaultValue = "")
    (hdel : tp.Delimiter.data ≠ []) :
    resolveEnvValue env tp = .ok "" ∧
    setEnvVarValues .stringK tp "" = .ok (.scalar (.sStr "")) ∧
    setEnvVarValues .anyK tp "" = .ok (.scalar (.sAny "")) ∧
    (∀ bits, setEnvVarValues (.intK bits) tp "" =
      .error ("failed to convert " ++ tp.EnvName ++ " to int: strconv.ParseInt: parsing " ++
        quotedStr "" ++ ": " ++ "invalid syntax")) ∧
    (∀ bits, setEnvVarValues (.uintK bits) tp "" =
      .error ("failed to convert " ++ tp.EnvName ++ " to uint: strconv.ParseUint: parsing " ++
        quotedStr "" ++ ": " ++ "invalid syntax")) ∧
    setEnvVarValues .boolK tp "" =
      .error ("error parsing env var " ++ tp.EnvName ++ ": strconv.ParseBool: parsing " ++
        quotedStr "" ++ ": " ++ "invalid syntax") ∧
    (∀ n e, n ≠ 1 → setEnvVarValues (.arrayK n e) tp "" =
      .error ("env var " ++ tp.EnvName ++ " has " ++ toString (1 : Nat) ++
        " values, but array expects " ++ toString n)) ∧
    setEnvVarValues (.sliceK .strE) tp "" = .ok (.vList [.sStr ""]) ∧
    setEnvVarValues (.mapK .strE .strE) tp "" =
      .error ("invalid map entry for " ++ tp.EnvName ++ ": " ++ "") := by
  have hsplit : goSplit "" tp.Delimiter = [""] := goSplit_empty_left _ hdel
  refine ⟨?_, rfl, rfl, ?_, ?_, ?_, ?_, ?_, ?_⟩
  · simp [resolveEnvValue, hn, hr, hd]
  · intro bits
    simp [setEnvVarValues, goParseInt, numErrMsg]
  · intro bits
    simp [setEnvVarValues, goParseUint, numErrMsg]
  · simp [setEnvVarValues, goParseBool, numErrMsg]
  · intro n e hne
    simp [setEnvVarValues, setEnvVarSliceOrArrayValues, hsplit, Ne.symm hne]
  · rw [setEnvVarValues, setEnvVarSliceOrArrayValues]
    simp only [hsplit]
    rw [if_neg (fun h => by cases h.1)]
    rw [procSliceTokens_strE]
    rfl
  · rw [setEnvVarValues, setEnvVarMapValues]
    simp only [hsplit]
    rfl

/-- C3 amended witness: the amended behaviors at a concrete descriptor (a
bare NUM tag, empty environment): string binds to the empty string, the
64-bit integer shape fails on the empty text. -/
theorem C3_empty_default_binding_witness :
    resolveEnvValue (fun _ => none) (parseTagAndTagValues "NUM") = .ok "" ∧
    setEnvVarValues .stringK (parseTagAndTagValues "NUM") "" = .ok (.scalar (.sStr "")) ∧
    setEnvVarValues (.intK 64) (parseTagAndTagValues "NUM") "" =
      .error ("failed to convert " ++ (parseTagAndTagValues "NUM").EnvName ++
        " to int: strconv.ParseInt: parsing " ++ quotedStr "" ++ ": invalid syntax") := by
  have h := C3_empty_default_binding (fun _ => none) (parseTagAndTagValues "NUM")
    rfl (by decide) (by decide) (by decide)
  exact ⟨h.1, h.2.1, h.2.2.2.1 64⟩

/-- C4: for a fixed-length sequence field of length N, a source text that
splits on the delimiter into exactly N tokens whose elements all coerce
binds successfully with the i-th bound element coming from the i-th
token, and a token count M different from N fails with the
length-mismatch error reporting expected N and actual M. Stated for
descriptors without the string hint, which bypasses splitting. -/
theorem C4_fixed_length_sequence (e : ElemKind) (n : Nat) (text : String)
    (tp : tagProperties) (his : tp.isString = false) :
    ((goSplit text tp.Delimiter).length = n →
      (∀ t ∈ goSplit text tp.Delimiter, ∃ w, coerceElem e tp.EnvName (goTrim t) = .ok w) →
      ∃ ws, setEnvVarValues (.arrayK n e) tp text = .ok (.vList ws) ∧
        ws.length = n ∧
        ∀ j t, (goSplit text tp.Delimiter).get? j = some t →
          ∃ w, coerceElem e tp.EnvName (goTrim t) = .ok w ∧ ws.get? j = some w) ∧
    ((goSplit text tp.Delimiter).length ≠ n →
      setEnvVarValues (.arrayK n e) tp text =
        .error ("env var " ++ tp.EnvName ++ " has " ++
          toString (goSplit text tp.Delimiter).length ++
          " values, but array expects " ++ toString n)) := by
  constructor
  · intro hlen hall
    obtain ⟨ws, h1, h2, h3⟩ := exceptMapM_ok_of_forall _ _ hall
    refine ⟨ws, ?_, by rw [h2, hlen], h3⟩
    simp only [setEnvVarValues, setEnvVarSliceOrArrayValues]
    rw [if_neg (fun h => h.2 hlen), procSliceTokens_not_isString _ _ _ _ _ his, h1]
    rfl
  · intro hne
    simp only [setEnvVarValues, setEnvVarSliceOrArrayValues]
    simp [hne]

/-- C4 witness: a two-element string array accepts a two-token text and
rejects a three-token text with the expected-versus-actual message. -/
theorem C4_fixed_length_sequence_witness :
    (∃ ws, setEnvVarValues (.arrayK 2 .strE) (parseTagAndTagValues "STRVAL") "hello,world" =
      .ok (.vList ws) ∧ ws.length = 2) ∧
    setEnvVarValues (.arrayK 2 .strE) (parseTagAndTagValues "STRVAL") "hello,world,foo" =
      .error ("env var " ++ "STRVAL" ++ " has " ++ toString (3 : Nat) ++
        " values, but array expects " ++ toString (2 : Nat)) := by
  constructor
  · obtain ⟨ws, h1, h2, h3⟩ :=
      (C4_fixed_length_sequence .strE 2 "hello,world" (parseTagAndTagValues "STRVAL") rfl).1
        (by decide) (fun t _ => ⟨.sStr (goTrim t), rfl⟩)
    exact ⟨ws, h1, h2⟩
  · exact (C4_fixed_length_sequence .strE 2 "hello,world,foo"
      (parseTagAndTagValues "STRVAL") rfl).2 (by decide)

/-- C5 counterexample: on the single-token text consisting of an opening
brace, the letter a, another opening brace, then b colon 1 and a closing
brace, src/parser.go removes every opening brace from the first token and
every closing brace from the last token, binding the key ab, whereas the
claimed one-leading-one-trailing strip would bind the key a-brace-b. The
two results differ, so the claim is false on this input. -/
theorem C5_counterexample :
    setEnvVarMapValues .strE .strE "M" (lbraceS ++ "a" ++ lbraceS ++ "b:1" ++ rbraceS)
      (parseTagAndTagValues "M") = .ok (.vMap [(.sStr "ab", .sStr "1")]) ∧
    specMapCoerce .strE .strE "M" (lbraceS ++ "a" ++ lbraceS ++ "b:1" ++ rbraceS)
      (parseTagAndTagValues "M") =
      .ok (.vMap [(.sStr ("a" ++ lbraceS ++ "b"), .sStr "1")]) ∧
    GoVal.vMap [(.sStr "ab", .sStr "1")] ≠
      GoVal.vMap [(.sStr ("a" ++ lbraceS ++ "b"), .sStr "1")] :=
  ⟨rfl, rfl, by decide⟩

/-- C5 amended: mapping coercion splits the source text on the delimiter,
removes every opening-brace character from the first token and every
closing-brace character from the last token, splits each token on the
first colon only with key and value trimmed, and fails with the
malformed-entry error naming the first token that contains no colon; the
braced text a colon 1 comma b colon 2 with the default delimiter binds to
a mapping of size two containing both entries. -/
theorem C5_map_coercion (name : String) (tp : tagProperties) (hdel : tp.Delimiter = ",") :
    setEnvVarMapValues .strE .strE name (lbraceS ++ "a:1,b:2" ++ rbraceS) tp =
      .ok (.vMap [(.sStr "a", .sStr "1"), (.sStr "b", .sStr "2")]) ∧
    setEnvVarMapValues .strE .strE name (lbraceS ++ "a1,b:2" ++ rbraceS) tp =
      .error ("invalid map entry for " ++ name ++ ": " ++ "a1") ∧
    setEnvVarMapValues .strE .strE name (lbraceS ++ " a : 1 " ++ rbraceS) tp =
      .ok (.vMap [(.sStr "a", .sStr "1")]) ∧
    setEnvVarMapValues .strE .strE name (lbraceS ++ "a:1:2" ++ rbraceS) tp =
      .ok (.vMap [(.sStr "a", .sStr "1:2")]) ∧
    (∀ text t, firstNoColon (stripBracesGo (goSplit text tp.Delimiter)) = some t →
      setEnvVarMapValues .strE .strE name text tp =
        .error ("invalid map entry for " ++ name ++ ": " ++ t)) ∧
    (∀ text, firstNoColon (stripBracesGo (goSplit text tp.Delimiter)) = none →
      ∃ es, setEnvVarMapValues .strE .strE name text tp = .ok (.vMap es)) := by
  refine ⟨?_, ?_, ?_, ?_, ?_, ?_⟩
  · simp only [setEnvVarMapValues, hdel]; rfl
  · simp only [setEnvVarMapValues, hdel]; rfl
  · simp only [setEnvVarMapValues, hdel]; rfl
  · simp only [setEnvVarMapValues, hdel]; rfl
  · intro text t ht
    simp only [setEnvVarMapValues]
    rw [(mapPairsLoop_strE name (stripBracesGo (goSplit text tp.Delimiter)) []).1 t ht]
    rfl
  · intro text ht
    obtain ⟨es, hes⟩ :=
      (mapPairsLoop_strE name (stripBracesGo (goSplit text tp.Delimiter)) []).2 ht
    refine ⟨es, ?_⟩
    simp only [setEnvVarMapValues]
    rw [hes]
    rfl

/-- C5 amended witness: the size-two round trip, the malformed-entry
error naming the a1 token, and the general no-colon error applied to a
bare token. -/
theorem C5_map_coercion_witness :
    setEnvVarMapValues .strE .strE "M" (lbraceS ++ "a:1,b:2" ++ rbraceS)
      (parseTagAndTagValues "M") =
      .ok (.vMap [(.sStr "a", .sStr "1"), (.sStr "b", .sStr "2")]) ∧
    setEnvVarMapValues .strE .strE "M" (lbraceS ++ "a1,b:2" ++ rbraceS)
      (parseTagAndTagValues "M") =
      .error ("invalid map entry for " ++ "M" ++ ": " ++ "a1") ∧
    setEnvVarMapValues .strE .strE "M" "x" (parseTagAndTagValues "M") =
      .error ("invalid map entry for " ++ "M" ++ ": " ++ "x") := by
  have h := C5_map_coercion "M" (parseTagAndTagValues "M") rfl
  exact ⟨h.1, h.2.1, h.2.2.2.2.1 "x" "x" rfl⟩

/-- C6 counterexample: the token required equals xfalse is recognized by
the required resolver and yields required false, although its value,
trimmed and lower-cased, is xfalse and not the literal false; the claim
says any value other than the literal false yields true. -/
theorem C6_counterexample :
    (checkAndSetTagPropRequired "required=xfalse" (parseTagAndTagValues "X")).Required = false ∧
    goToLower (goTrim "xfalse") ≠ "false" :=
  ⟨rfl, by decide⟩

/-- C6 amended: the bare keyword yields required true; in the
keyword-equals-value form the resolver examines the text between the
first and second equals sign, trimmed and lower-cased, and yields true
when it contains true as a substring, else false when it contains false
as a substring, else true. -/
theorem C6_required_resolver (tp : tagProperties) :
    (checkAndSetTagPropRequired "required" tp).Required = true ∧
    (checkAndSetTagPropRequired "required=true" tp).Required = true ∧
    (checkAndSetTagPropRequired "required=false" tp).Required = false ∧
    (checkAndSetTagPropRequired "required=garbage" tp).Required = true ∧
    (checkAndSetTagPropRequired "required=xfalse" tp).Required = false ∧
    (∀ prop, goContains (goToLower prop) "required" = true →
      goContains (reqExamined prop) "true" = true →
      checkAndSetTagPropRequired prop tp = { tp with Required := true }) ∧
    (∀ prop, goContains (goToLower prop) "required" = true →
      goContains (reqExamined prop) "true" = false →
      goContains (reqExamined prop) "false" = true →
      checkAndSetTagPropRequired prop tp = { tp with Required := false }) ∧
    (∀ prop, goContains (goToLower prop) "required" = true →
      goContains (reqExamined prop) "true" = false →
      goContains (reqExamined prop) "false" = false →
      checkAndSetTagPropRequired prop tp = { tp with Required := true }) := by
  refine ⟨rfl, rfl, rfl, rfl, rfl, ?_, ?_, ?_⟩
  · intro prop h1 h2
    simp [checkAndSetTagPropRequired, h1, h2]
  · intro prop h1 h2 h3
    simp [checkAndSetTagPropRequired, h1, h2, h3]
  · intro prop h1 h2 h3
    simp [checkAndSetTagPropRequired, h1, h2, h3]

/-- C6 amended witness: the substring rule applied to the token required
equals yes, whose examined value contains neither true nor false. -/
theorem C6_required_resolver_witness :
    checkAndSetTagPropRequired "required=yes" (parseTagAndTagValues "X") =
      { parseTagAndTagValues "X" with Required := true } :=
  (C6_required_resolver (parseTagAndTagValues "X")).2.2.2.2.2.2.2 "required=yes" rfl rfl rfl

/-- C7: a token recognized by the default resolver with an equals sign
installs the text after the first equals sign, trimmed and lower-cased,
with one pair of symmetric surrounding quotes stripped and the interior
re-trimmed — so the single-quoted, double-quoted and bare spellings of x
all resolve the default to x — while a recognized token without an equals
sign leaves the default unchanged (the empty string) without error. -/
theorem C7_default_resolver (tp : tagProperties) :
    (parseTagAndTagValues ("NAME,default=" ++ squoteS ++ "x" ++ squoteS)).DefaultValue = "x" ∧
    (parseTagAndTagValues ("NAME,default=" ++ dquoteS ++ "x" ++ dquoteS)).DefaultValue = "x" ∧
    (parseTagAndTagValues "NAME,default=x").DefaultValue = "x" ∧
    (parseTagAndTagValues "NAME,default=X").DefaultValue = "x" ∧
    (parseTagAndTagValues "NAME,default").DefaultValue = "" ∧
    (∀ prop, goContains (goToLower prop) "default" = true →
      goContains prop "=" = false →
      checkAndSetTagPropDefaultValue prop tp = tp) ∧
    (∀ prop p, goContains (goToLower prop) "default" = true →
      goContains prop "=" = true →
      splitFirstChar '=' prop.data = some p →
      checkAndSetTagPropDefaultValue prop tp =
        { tp with DefaultValue := stripSymQuotes (goToLower (goTrim (String.mk p.2))) }) := by
  refine ⟨rfl, rfl, rfl, rfl, rfl, ?_, ?_⟩
  · intro prop h1 h2
    simp [checkAndSetTagPropDefaultValue, h1, h2]
  · intro prop p h1 h2 h3
    simp [checkAndSetTagPropDefaultValue, h1, h2, h3]

/-- C7 witness: the general resolver rules at concrete tokens — a bare
default keyword is a no-op and default equals q installs q. -/
theorem C7_default_resolver_witness :
    checkAndSetTagPropDefaultValue "default" (parseTagAndTagValues "X") =
      parseTagAndTagValues "X" ∧
    checkAndSetTagPropDefaultValue "default=q" (parseTagAndTagValues "X") =
      { parseTagAndTagValues "X" with DefaultValue := "q" } := by
  constructor
  · exact (C7_default_resolver (parseTagAndTagValues "X")).2.2.2.2.2.1 "default" rfl rfl
  · exact (C7_default_resolver (parseTagAndTagValues "X")).2.2.2.2.2.2 "default=q"
      ("default".data, "q".data) rfl rfl rfl

/-- C8 counterexample: the delimiter token with a single-quoted capital A
installs the delimiter a, not the unquoted trimmed content A, because the
resolver lower-cases the value before unquoting; the claim predicts the
content A is installed. -/
theorem C8_counterexample :
    (checkAndSetTagPropDelimiterForSliceOrArray
      ("delimiter=" ++ squoteS ++ "A" ++ squoteS) (parseTagAndTagValues "X")).Delimiter = "a" ∧
    ("a" : String) ≠ "A" :=
  ⟨rfl, by decide⟩

/-- C8 amended: the delimiter changes only when the token has an equals
sign and the value after it, trimmed and lower-cased, is a quoted literal
of length at least two with matching outer quote characters, in which
case the unquoted re-trimmed content of that lower-cased value is
installed; any other form — no equals sign, unquoted, or mismatched
quotes — is silently ignored and the delimiter stays at its default
comma. -/
theorem C8_delimiter_resolver (tp : tagProperties) :
    (parseTagAndTagValues ("STRVAL, delimiter=" ++ squoteS ++ ";" ++ squoteS)).Delimiter = ";" ∧
    (parseTagAndTagValues "STRVAL, delimiter").Delimiter = "," ∧
    (parseTagAndTagValues "STRVAL, delimiter=;").Delimiter = "," ∧
    (parseTagAndTagValues ("STRVAL, delimiter=" ++ squoteS ++ ";" ++ dquoteS)).Delimiter = "," ∧
    (∀ prop, goContains (goToLower prop) "delimiter" = true →
      goContains prop "=" = false →
      checkAndSetTagPropDelimiterForSliceOrArray prop tp = tp) ∧
    (∀ prop p, goContains (goToLower prop) "delimiter" = true →
      goContains prop "=" = true →
      splitFirstChar '=' prop.data = some p →
      (isQuotedPair (delimValueOf p.2) →
        checkAndSetTagPropDelimiterForSliceOrArray prop tp =
          { tp with Delimiter := goTrim (String.mk ((delimValueOf p.2).drop 1 |>.dropLast)) }) ∧
      (¬ isQuotedPair (delimValueOf p.2) →
        checkAndSetTagPropDelimiterForSliceOrArray prop tp = tp)) := by
  refine ⟨rfl, rfl, rfl, rfl, ?_, ?_⟩
  · intro prop h1 h2
    simp [checkAndSetTagPropDelimiterForSliceOrArray, h1, h2]
  · intro prop p h1 h2 h3
    constructor
    · intro hq
      simp [checkAndSetTagPropDelimiterForSliceOrArray, h1, h2, h3, hq]
    · intro hq
      simp [checkAndSetTagPropDelimiterForSliceOrArray, h1, h2, h3, hq]

/-- C8 amended witness: the quoted-pair rule applied to concrete tokens —
an unquoted value is ignored, a properly quoted semicolon is
installed. -/
theorem C8_delimiter_resolver_witness :
    checkAndSetTagPropDelimiterForSliceOrArray "delimiter=;" (parseTagAndTagValues "X") =
      parseTagAndTagValues "X" ∧
    checkAndSetTagPropDelimiterForSliceOrArray ("delimiter=" ++ squoteS ++ ";" ++ squoteS)
      (parseTagAndTagValues "X") =
      { parseTagAndTagValues "X" with Delimiter := ";" } := by
  constructor
  · exact ((C8_delimiter_resolver (parseTagAndTagValues "X")).2.2.2.2.2 "delimiter=;"
      ("delimiter".data, ";".data) rfl rfl (by decide)).2 (by decide)
  · exact ((C8_delimiter_resolver (parseTagAndTagValues "X")).2.2.2.2.2
      ("delimiter=" ++ squoteS ++ ";" ++ squoteS)
      ("delimiter".data, (squoteS ++ ";" ++ squoteS).data) rfl rfl (by decide)).1 (by decide)

/-- C9: when the field at index i is the first whose bind step fails, the
field loop returns that error immediately; every field strictly after
index i keeps its prior value, and every field before i holds the value
its successful bind step produced — no rollback. Nothing is claimed
about the failing field itself, which for an array shape is mutated
element by element in place and may be left partially assigned. -/
theorem C9_fail_fast_no_rollback (env : String → Option String) :
    ∀ (fields : List (String × FieldKind)) (vals : List GoVal) (i : Nat)
      (tag : String) (kind : FieldKind) (e : String),
      vals.length = fields.length →
      fields.get? i = some (tag, kind) →
      (∀ j tj kj, j < i → fields.get? j = some (tj, kj) →
        ∃ w, bindField env tj kj = .ok w) →
      bindField env tag kind = .error e →
      (parseEnvVarGo env fields vals).1 = some e ∧
      (∀ k, i < k → (parseEnvVarGo env fields vals).2.get? k = vals.get? k) ∧
      (∀ j tj kj, j < i → fields.get? j = some (tj, kj) →
        ∃ w, bindField env tj kj = .ok w ∧
          (parseEnvVarGo env fields vals).2.get? j = some w) := by
  intro fields
  induction fields with
  | nil =>
    intro vals i tag kind e hlen hi
    simp at hi
  | cons f fs ih =>
    intro vals i tag kind e hlen hi hpre herr
    obtain ⟨t0, k0⟩ := f
    cases vals with
    | nil => simp at hlen
    | cons v vs =>
      cases i with
      | zero =>
        simp at hi
        obtain ⟨h1, h2⟩ := hi
        subst h1
        subst h2
        obtain ⟨v2, hmut⟩ := bindFieldMut_error_exists env t0 k0 v e herr
        refine ⟨?_, ?_, ?_⟩
        · simp [parseEnvVarGo, hmut]
        · intro k hk
          cases k with
          | zero => omega
          | succ k2 => simp [parseEnvVarGo, hmut]
        · intro j tj kj hj
          exact absurd hj (Nat.not_lt_zero j)
      | succ i2 =>
        have hi2 : fs.get? i2 = some (tag, kind) := by simpa using hi
        obtain ⟨w0, hw0⟩ := hpre 0 t0 k0 (Nat.succ_pos i2) (by simp)
        have hmut0 : bindFieldMut env t0 k0 v = .ok w0 :=
          (bindFieldMut_ok_iff env t0 k0 v w0).mpr hw0
        have hlen2 : vs.length = fs.length := by simpa using hlen
        have hpre2 : ∀ j tj kj, j < i2 → fs.get? j = some (tj, kj) →
            ∃ w, bindField env tj kj = .ok w := by
          intro j tj kj hj hget
          exact hpre (j + 1) tj kj (by omega) (by simpa using hget)
        obtain ⟨ha, hb, hc⟩ := ih vs i2 tag kind e hlen2 hi2 hpre2 herr
        refine ⟨?_, ?_, ?_⟩
        · simp [parseEnvVarGo, hmut0, ha]
        · intro k hk
          cases k with
          | zero => omega
          | succ k2 =>
            have hk2 := hb k2 (by omega)
            simp only [parseEnvVarGo, hmut0]
            simpa using hk2
        · intro j tj kj hj hget
          cases j with
          | zero =>
            simp at hget
            obtain ⟨hg1, hg2⟩ := hget
            subst hg1
            subst hg2
            refine ⟨w0, hw0, ?_⟩
            simp [parseEnvVarGo, hmut0]
          | succ j2 =>
            obtain ⟨w, hw, hr⟩ := hc j2 tj kj (by omega) (by simpa using hget)
            refine ⟨w, hw, ?_⟩
            simp only [parseEnvVarGo, hmut0]
            simpa using hr

/-- C9 witness: a three-field record whose second field is required and
absent — the loop reports the required error, the first field holds its
newly bound value and the later fields keep their prior values. -/
theorem C9_fail_fast_no_rollback_witness :
    (parseEnvVarGo (fun n => if n = "A" then some "va" else none)
      [("A", .stringK), ("B,required", .stringK), ("C", .stringK)]
      [.scalar (.sStr "p0"), .scalar (.sStr "p1"), .scalar (.sStr "p2")]).1 =
        some ("required environment variable B not found") ∧
    (parseEnvVarGo (fun n => if n = "A" then some "va" else none)
      [("A", .stringK), ("B,required", .stringK), ("C", .stringK)]
      [.scalar (.sStr "p0"), .scalar (.sStr "p1"), .scalar (.sStr "p2")]).2.get? 2 =
        some (.scalar (.sStr "p2")) ∧
    (∃ w, bindField (fun n => if n = "A" then some "va" else none) "A" .stringK = .ok w ∧
      (parseEnvVarGo (fun n => if n = "A" then some "va" else none)
        [("A", .stringK), ("B,required", .stringK), ("C", .stringK)]
        [.scalar (.sStr "p0"), .scalar (.sStr "p1"), .scalar (.sStr "p2")]).2.get? 0 =
          some w) := by
  have h := C9_fail_fast_no_rollback (fun n => if n = "A" then some "va" else none)
    [("A", .stringK), ("B,required", .stringK), ("C", .stringK)]
    [.scalar (.sStr "p0"), .scalar (.sStr "p1"), .scalar (.sStr "p2")]
    1 "B,required" .stringK "required environment variable B not found"
    rfl rfl
    (by
      intro j tj kj hj hget
      have hj0 : j = 0 := by omega
      subst hj0
      simp at hget
      obtain ⟨hg1, hg2⟩ := hget
      subst hg1
      subst hg2
      exact ⟨.scalar (.sStr "va"), rfl⟩)
    rfl
  exact ⟨h.1, (h.2.1 2 (by omega)).trans rfl, h.2.2 0 "A" .stringK (by omega) rfl⟩

/-- C10: after a successful LoadEnv for a record type, every later call
for the same type returns the cached snapshot and leaves the cache
unchanged, regardless of the options, the loader outcome and the parse
outcome of the later call — WithCacheConfig false included — and on a
miss a successful parse result is stored unconditionally, with no
dependence on the CacheConfig setting. -/
theorem C10_cache_regardless_of_options {V : Type} (cache : List (String × V)) (key : String)
    (opts : List (settings → settings)) (loaderOk : Bool) (parseResult : Except String V) :
    (∀ v, lookupCache cache key = some v →
      loadEnvGo cache key opts loaderOk parseResult = (.ok v, cache)) ∧
    (lookupCache cache key = none →
      loadEnvFileGo loaderOk (loadSettings opts).AutoLoadEnv (loadSettings opts).EnvFiles = true →
      ∀ w, parseResult = .ok w →
        loadEnvGo cache key opts loaderOk parseResult = (.ok w, (key, w) :: cache)) ∧
    (∀ v cache2 opts2 loaderOk2 parseResult2,
      lookupCache cache key = none →
      loadEnvGo cache key opts loaderOk parseResult = (.ok v, cache2) →
      loadEnvGo cache2 key opts2 loaderOk2 parseResult2 = (.ok v, cache2)) := by
  refine ⟨?_, ?_, ?_⟩
  · intro v hv
    simp [loadEnvGo, hv]
  · intro hn hfile w hw
    simp [loadEnvGo, hn, hfile, hw]
  · intro v cache2 opts2 loaderOk2 parseResult2 hn hfirst
    simp only [loadEnvGo, hn] at hfirst
    cases hfb : loadEnvFileGo loaderOk (loadSettings opts).AutoLoadEnv (loadSettings opts).EnvFiles with
    | false =>
      rw [hfb] at hfirst
      simp at hfirst
    | true =>
      rw [hfb] at hfirst
      cases parseResult with
      | error e => simp at hfirst
      | ok w =>
        simp at hfirst
        obtain ⟨hv, hc⟩ := hfirst
        subst hv
        subst hc
        simp [loadEnvGo, lookupCache]

/-- C10 witness: a first call with caching "disabled" still stores the
parsed record, and a second call with caching "disabled", a failing
loader and a failing parse still returns the cached snapshot. -/
theorem C10_cache_regardless_of_options_witness :
    loadEnvGo ([] : List (String × Nat)) "T" [WithCacheConfig false] true (.ok 5) =
      (.ok 5, [("T", 5)]) ∧
    loadEnvGo [("T", 5)] "T" [WithCacheConfig false] false (.error "boom") =
      (.ok 5, [("T", 5)]) := by
  constructor
  · exact (C10_cache_regardless_of_options ([] : List (String × Nat)) "T"
      [WithCacheConfig false] true (.ok 5)).2.1 rfl rfl 5 rfl
  · exact (C10_cache_regardless_of_options [("T", 5)] "T"
      [WithCacheConfig false] false (.error "boom")).1 5 rfl

end Envarfig
